import Mathlib

/-
Shallow embedding of the video-downloader frontend (src/src/App.js).

The source is a React function component.  Its handlers are JavaScript
closures re-created at each render: a handler reads the state value that
was current when it was created (`const [x, setX] = useState(...)`), and a
call to `setX` schedules an update for the next render without changing the
value captured by an already-created closure.  The embedding makes these
captures explicit: a function that the source defines as a closure over a
state variable takes the captured value as an explicit argument, while the
live component state is threaded as an `AppState` record.  User events are
assumed to see a freshly rendered component (their captures equal the live
state at event time); an `await` continuation keeps the captures of the
invocation that started it.  An effect registered with a dependency list
re-runs at every committed change of its dependency, running its previous
cleanup first; each event of the machine therefore ends with the cleanup
of the `[eventSource]` effect (lines 66-72), which closes the previously
stored EventSource when the cell changed.

Machine integers do not overflow in the quantities involved (ports, byte
rates, millisecond timestamps are far below 2^53, where JavaScript numbers
are exact), so they are modelled as `Nat`/`Int`.  `JSON.parse` of a progress
event is modelled by its result: `Option ProgressMsg`, `none` standing for a
non-JSON-parseable payload; absent (`undefined`) fields of a parsed object
are `Option` fields.
-/

namespace VideoDownloader

/-- Result of `JSON.parse(event.data)` for a progress event (spec §6:
`{ status, speed }`); either field may be absent (`undefined`). -/
structure ProgressMsg where
  status : Option String
  speed : Option Int
deriving DecidableEq

/-- JavaScript `a || b` for an optionally-present string field: `undefined`
and the empty string are falsy (App.js lines 85, 123, 162). -/
def jsOrString (a : Option String) (b : String) : String :=
  match a with
  | some s => if s = "" then b else s
  | none => b

/-- JavaScript `a || b` for an optionally-present numeric field: `undefined`
and `0` are falsy (App.js line 86). -/
def jsOrInt (a : Option Int) (b : Int) : Int :=
  match a with
  | some n => if n = 0 then b else n
  | none => b

/-- JavaScript `x < bound` where `x` may be `undefined`: a comparison with
`undefined` (NaN) is false (App.js lines 386-389 of the richer variant). -/
def jsLt (x : Option Int) (bound : Int) : Bool :=
  match x with
  | some v => decide (v < bound)
  | none => false

/-- Live state of the download-progress coordinator (base variant,
App.js lines 24-182).  `openChannels` records the ids of the EventSource
objects that are currently open (freshly numbered by `nextId`);
`eventSource` is the React state cell of the same name; `pendingFetches`
stores, per started merge-download job in click order, the `eventSource`
value captured by the render that created the job's handler, which the
code after the `await` will read. -/
structure AppState where
  nextId : Nat
  openChannels : List Nat
  eventSource : Option Nat
  downloadStatus : String
  downloadSpeed : Int
  pendingFetches : List (Option Nat)
deriving DecidableEq

/-- Effect of `es.close()` on a channel id: the channel is no longer open. -/
def closeChannel (ch : Nat) (st : AppState) : AppState :=
  { st with openChannels := st.openChannels.erase ch }

/-- App.js lines 74-104 (`startProgressStream`), channel-opening part:
close the captured `eventSource` if present (lines 76-78; `captured` is the
closure's render-time value of the `eventSource` state), open a fresh
EventSource and publish it via `setEventSource` (lines 80, 103). -/
def startProgressStream (captured : Option Nat) (st : AppState) : AppState :=
  let st1 := match captured with
    | some ch => closeChannel ch st
    | none => st
  { st1 with
    openChannels := st1.nextId :: st1.openChannels
    eventSource := some st1.nextId
    nextId := st1.nextId + 1 }

/-- App.js lines 82-96: the `es.onmessage` handler of an open channel `ch`.
A closed EventSource dispatches no events, so a message on a channel not in
`openChannels` has no effect.  A payload that `JSON.parse` rejects
(`data = none`) is swallowed by the empty `catch` (line 95).  Otherwise
status and speed are stored (lines 85-86) and a terminal status closes the
channel and nulls the state cell (lines 88-94). -/
def onMessage (ch : Nat) (data : Option ProgressMsg) (st : AppState) : AppState :=
  if ch ∈ st.openChannels then
    match data with
    | none => st
    | some p =>
      let st1 := { st with
        downloadStatus := jsOrString p.status ""
        downloadSpeed := jsOrInt p.speed 0 }
      if p.status = some "completed" ∨ p.status = some "finished" then
        { closeChannel ch st1 with eventSource := none }
      else if p.status = some "error" then
        { closeChannel ch st1 with eventSource := none }
      else st1
  else st

/-- App.js lines 98-101: the `es.onerror` handler closes the channel and
nulls the state cell; a closed channel fires no events. -/
def onChannelError (ch : Nat) (st : AppState) : AppState :=
  if ch ∈ st.openChannels then
    { closeChannel ch st with eventSource := none }
  else st

/-- App.js lines 129-141: the synchronous part of `handleMergeDownload`, up
to the `await` on line 142.  `captured` is the render-time value of the
`eventSource` state seen by this invocation's closure; it is the value the
the guard on line 134 tests, the value `startProgressStream` (created in
the same render) tests on line 76, and the value the post-`await` code on
line 154 will test, so it is recorded in `pendingFetches`. -/
def handleMergeDownloadStart (st : AppState) : AppState :=
  let captured := st.eventSource
  let st1 := { st with downloadStatus := "starting", downloadSpeed := 0 }
  let st2 := match captured with
    | some ch => { closeChannel ch st1 with eventSource := none }
    | none => st1
  let st3 := startProgressStream captured st2
  { st3 with pendingFetches := st3.pendingFetches ++ [captured] }

/-- App.js lines 154-167: the success continuation of the merge-download
fetch.  The guard on line 154 reads the invocation's captured `eventSource`
value, not the live state, so it closes (and nulls) the pre-job handle;
then the status is forced to `completed` (line 167). -/
def handleMergeDownloadSuccess (captured : Option Nat) (st : AppState) : AppState :=
  let st1 := match captured with
    | some ch => { closeChannel ch st with eventSource := none }
    | none => st
  { st1 with downloadStatus := "completed" }

/-- App.js lines 168-174: the failure continuation of the merge-download
fetch: close the captured handle if present and force status `error`. -/
def handleMergeDownloadFailure (captured : Option Nat) (st : AppState) : AppState :=
  let st1 := match captured with
    | some ch => { closeChannel ch st with eventSource := none }
    | none => st
  { st1 with downloadStatus := "error" }

/-- App.js line 162: the file name offered for the fetched blob,
`videoInfo.title + "_" + (format.quality || format.resolution) + ".mp4"`. -/
def downloadFileName (title quality resolution : String) : String :=
  title ++ "_" ++ jsOrString (some quality) resolution ++ ".mp4"

/-- Events the coordinator reacts to: a user click on a download button, the
resolution (success or failure) of the fetch started by the `k`-th click,
a progress message on channel `ch`, and a transport error on channel `ch`. -/
inductive Ev where
  | click
  | fetchOk (k : Nat)
  | fetchFail (k : Nat)
  | message (ch : Nat) (data : Option ProgressMsg)
  | channelError (ch : Nat)
deriving DecidableEq

/-- The handler invoked by one event, before React commits the update.  A
fetch continuation runs with the capture its click recorded. -/
def handlerStep (st : AppState) (e : Ev) : AppState :=
  match e with
  | .click => handleMergeDownloadStart st
  | .fetchOk k =>
    match st.pendingFetches.get? k with
    | some captured => handleMergeDownloadSuccess captured st
    | none => st
  | .fetchFail k =>
    match st.pendingFetches.get? k with
    | some captured => handleMergeDownloadFailure captured st
    | none => st
  | .message ch d => onMessage ch d st
  | .channelError ch => onChannelError ch st

/-- App.js lines 66-72: the `useEffect` with dependency list
`[eventSource]`.  Its cleanup, `if (eventSource) eventSource.close()`,
runs at every committed change of the `eventSource` state cell (and at
unmount) with the cell's previous value: when an event handler moves the
cell away from `some ch`, the EventSource `ch` stored there is closed even
if the handler itself closed a different (captured) handle.  `prev` is the
committed cell value before the event; when the cell did not change, the
effect does not re-run. -/
def effectCleanup (prev : Option Nat) (st : AppState) : AppState :=
  if st.eventSource = prev then st
  else
    match prev with
    | some ch => closeChannel ch st
    | none => st

/-- One event of the coordinator: the handler runs, then React commits the
state update and the `[eventSource]` effect cleanup closes the previously
stored channel if the cell changed. -/
def step (st : AppState) (e : Ev) : AppState :=
  effectCleanup st.eventSource (handlerStep st e)

/-- Run a sequence of events. -/
def run (st : AppState) : List Ev → AppState
  | [] => st
  | e :: es => run (step st e) es

/-- Component state at mount: no channel, empty status, speed 0. -/
def initState : AppState :=
  { nextId := 0, openChannels := [], eventSource := none
    downloadStatus := "", downloadSpeed := 0, pendingFetches := [] }

/-- Well-formedness of the channel bookkeeping: open channel ids are
pairwise distinct and below the fresh-id counter.  It holds at mount and is
preserved by every event. -/
def ChOk (st : AppState) : Prop :=
  st.openChannels.Nodup ∧ ∀ c ∈ st.openChannels, c < st.nextId

instance (st : AppState) : Decidable (ChOk st) := by
  unfold ChOk; infer_instance

/-- The open-channel set is exactly what the `eventSource` cell stores:
the lockstep the `[eventSource]` effect cleanup maintains.  It holds at
mount and is preserved by every event. -/
def CellInv (st : AppState) : Prop :=
  st.openChannels = st.eventSource.toList

instance (st : AppState) : Decidable (CellInv st) := by
  unfold CellInv; infer_instance

/-! ### Richer variant: slow-connection advisory (App.js lines 329-492) -/

/-- Observable job state of the richer variant's progress handler:
status, speed, the advisory text (`slowDownloadReason`), and whether the
handler's own channel is still open. -/
structure RichState where
  downloadStatus : String
  downloadSpeed : Int
  slowDownloadReason : String
  channelOpen : Bool
deriving DecidableEq

/-- App.js line 388: the stricter advisory wording. -/
def verySlowText : String :=
  "Very slow internet connection detected. This might take a while."

/-- App.js line 390: the milder advisory wording. -/
def slowText : String :=
  "Slow internet connection detected. Please be patient."

/-- App.js lines 375-405: the `es.onmessage` handler of the richer variant.
`captured` is the `downloadStartTime` state value the handler's closure
captured at creation (line 384): `setDownloadStartTime(Date.now())` on line
370 only takes effect at the next render, so the closure holds the previous
value — `null` (which JavaScript arithmetic treats as 0) or an earlier
job's timestamp — hence `captured` is at most the actual job-start time.
`now` is `Date.now()` at message arrival, in milliseconds; the source
condition `(now - captured) / 1000 > 30` over exact JavaScript division
equals `now - captured > 30000` on integer timestamps.  The slow-connection
check (lines 382-393) runs after the status/speed stores (lines 378-379)
and before the terminal check (lines 395-403), which closes the channel and
clears the advisory. -/
def richOnMessage (captured now : Int) (data : Option ProgressMsg)
    (st : RichState) : RichState :=
  match data with
  | none => st
  | some p =>
    let st1 := { st with
      downloadStatus := jsOrString p.status ""
      downloadSpeed := jsOrInt p.speed 0 }
    let st2 :=
      if p.status = some "downloading" then
        if now - captured > 30000 ∧ jsLt p.speed 1048576 = true then
          if jsLt p.speed 51200 = true then
            { st1 with slowDownloadReason := verySlowText }
          else if jsLt p.speed 204800 = true then
            { st1 with slowDownloadReason := slowText }
          else st1
        else st1
      else st1
    if p.status = some "completed" ∨ p.status = some "finished" then
      { st2 with channelOpen := false, slowDownloadReason := "" }
    else if p.status = some "error" then
      { st2 with channelOpen := false, slowDownloadReason := "" }
    else st2

/-- App.js lines 407-411: the richer variant's `es.onerror` handler closes
the channel and clears the advisory. -/
def richOnError (st : RichState) : RichState :=
  { st with channelOpen := false, slowDownloadReason := "" }

/-! ### Format list filtering (App.js lines 235-238) -/

/-- One backend format descriptor (spec §3).  `filesize` is `none` when the
backend reports no size (`undefined`/`null`). -/
structure FormatDescriptor where
  format_id : String
  quality : String
  resolution : String
  mimeType : String
  hasAudio : Bool
  filesize : Option Int
deriving DecidableEq

/-- App.js line 237, first two conjuncts of the filter predicate:
`f.filesize && f.filesize > 0` — an absent or zero filesize is falsy, and
otherwise the size must be positive. -/
def filesizeOk (f : FormatDescriptor) : Bool :=
  match f.filesize with
  | some n => decide (0 < n)
  | none => false

/-- App.js lines 235-238, the stateful filter pass: `seen` is the mutable
`Set` of qualities; `seen.add(f.quality)` runs only when the earlier
conjuncts hold, so a quality enters `seen` exactly when an entry with that
quality is kept. -/
def displayedFormatsGo (seen : List String) :
    List FormatDescriptor → List FormatDescriptor
  | [] => []
  | f :: rest =>
    if filesizeOk f = true ∧ f.quality ∉ seen then
      f :: displayedFormatsGo (f.quality :: seen) rest
    else
      displayedFormatsGo seen rest

/-- App.js lines 235-238: the displayed format list, starting from an empty
`seen` set. -/
def displayedFormats (fs : List FormatDescriptor) : List FormatDescriptor :=
  displayedFormatsGo [] fs

/-! ### Backend locator (App.js lines 49-63) -/

/-- App.js line 52: the ports enumerated by
`for (let port = 5001; port < 5010; port++)`, in loop order. -/
def candidatePorts : List Nat :=
  [5001, 5002, 5003, 5004, 5005, 5006, 5007, 5008, 5009]

/-- App.js lines 51-61 (`checkBackendPort`): probe the candidates in order
against the reachability oracle `reach` (a successful
`GET /api/health`), `break` on the first success.  Returns the port whose
probe succeeded, if any. -/
def checkBackendPort (reach : Nat → Bool) : Option Nat :=
  candidatePorts.find? reach

/-- App.js lines 29, 55: the `backendPort` state after the probe loop ran:
the first reachable candidate, or the `useState(5001)` default when every
probe failed. -/
def resolvedBackendPort (reach : Nat → Bool) : Nat :=
  (checkBackendPort reach).getD 5001

/-! ### Speed formatting (App.js lines 106-111) -/

/-- App.js lines 106-111 (`formatSpeed`).  Integer byte rates are exact in
JavaScript numbers, and division by the powers of two 1024 and 1048576 is
exact in binary floating point, so `x.toFixed(1)` is the half-up rounding
of `10 * x` rendered with one decimal digit: for `x = speed / d` with `d`
even, that integer is `(10 * speed + d / 2) / d` by natural division. -/
def formatSpeed (speed : Nat) : String :=
  if speed = 0 then ""
  else if speed < 1024 then
    toString speed ++ " B/s"
  else if speed < 1048576 then
    let t := (speed * 10 + 512) / 1024
    toString (t / 10) ++ "." ++ toString (t % 10) ++ " KB/s"
  else
    let t := (speed * 10 + 524288) / 1048576
    toString (t / 10) ++ "." ++ toString (t % 10) ++ " MB/s"

/-! ### Format request flow (App.js lines 113-127) -/

/-- Spec §3 VideoInfo: the format-listing response body. -/
structure VideoInfo where
  title : String
  formats : List FormatDescriptor
deriving DecidableEq

/-- The component state touched by `handleSubmit`. -/
structure SubmitState where
  loading : Bool
  error : String
  videoInfo : Option VideoInfo
deriving DecidableEq

/-- Outcome of the `POST /api/download` request: a parsed `VideoInfo` on
success, or a failure carrying `err.response?.data?.error` (absent when the
failure has no such field). -/
inductive SubmitOutcome where
  | ok (info : VideoInfo)
  | fail (backendMsg : Option String)
deriving DecidableEq

/-- App.js lines 115-117: the synchronous prologue of `handleSubmit`:
`setLoading(true); setError(''); setVideoInfo(null)`. -/
def handleSubmitStart (st : SubmitState) : SubmitState :=
  { st with loading := true, error := "", videoInfo := none }

/-- App.js lines 119-126: the continuation of `handleSubmit` once the
request settles: store the response data, or surface
`err.response?.data?.error || 'Failed to process video'`; either way clear
the loading flag. -/
def handleSubmitResult (r : SubmitOutcome) (st : SubmitState) : SubmitState :=
  match r with
  | .ok info => { st with videoInfo := some info, loading := false }
  | .fail m =>
    { st with error := jsOrString m "Failed to process video", loading := false }

/-- App.js lines 113-127: one full `handleSubmit` run with outcome `r`. -/
def handleSubmit (r : SubmitOutcome) (st : SubmitState) : SubmitState :=
  handleSubmitResult r (handleSubmitStart st)

/-- C4 counterexample data: two descriptors with the same quality, the
first with filesize 0 (dropped by the filter), the second with a positive
filesize (kept). -/
def cexA : FormatDescriptor :=
  ⟨"a", "720p", "1280x720", "mp4", true, some 0⟩

/-- C4 counterexample data: the later, filesize-positive duplicate. -/
def cexB : FormatDescriptor :=
  ⟨"b", "720p", "1280x720", "mp4", true, some 5⟩

/-! ## Helper lemmas about the channel bookkeeping -/

theorem erase_keeps_facts {l : List Nat} {n : Nat} (hnd : l.Nodup)
    (hlt : ∀ c ∈ l, c < n) (ch : Nat) :
    (l.erase ch).Nodup ∧ (∀ c ∈ l.erase ch, c < n) ∧
      ∀ c : Nat, c ∉ l → c ∉ l.erase ch :=
  ⟨hnd.erase ch, fun c hc => hlt c (List.mem_of_mem_erase hc),
   fun _c hc hmem => hc (List.mem_of_mem_erase hmem)⟩

theorem cons_fresh_facts {l : List Nat} {n : Nat} (hnd : l.Nodup)
    (hlt : ∀ c ∈ l, c < n) :
    (n :: l).Nodup ∧ (∀ c ∈ n :: l, c < n + 1) ∧
      ∀ c : Nat, c < n → c ∉ l → c ∉ n :: l := by
  refine ⟨List.nodup_cons.mpr ⟨fun hmem => ?_, hnd⟩, ?_, ?_⟩
  · exact absurd (hlt n hmem) (lt_irrefl n)
  · intro c hc
    rcases List.mem_cons.mp hc with h | h
    · omega
    · exact Nat.lt_succ_of_lt (hlt c h)
  · intro c hc hnotmem hmem
    rcases List.mem_cons.mp hmem with h | h
    · omega
    · exact hnotmem h

/-- Every event handler preserves the channel bookkeeping invariant, never
decreases the fresh-id counter, and never reopens a closed channel whose id
is below the counter. -/
theorem chOk_handlerStep (st : AppState) (e : Ev) (h : ChOk st) :
    ChOk (handlerStep st e) ∧ st.nextId ≤ (handlerStep st e).nextId ∧
      ∀ c, c < st.nextId → c ∉ st.openChannels → c ∉ (handlerStep st e).openChannels := by
  obtain ⟨hnd, hlt⟩ := h
  cases e with
  | click =>
      cases hes : st.eventSource with
      | none =>
          have hopen : (handlerStep st Ev.click).openChannels =
              st.nextId :: st.openChannels := by
            simp [handlerStep, handleMergeDownloadStart, startProgressStream,
              closeChannel, hes]
          have hnext : (handlerStep st Ev.click).nextId = st.nextId + 1 := by
            simp [handlerStep, handleMergeDownloadStart, startProgressStream,
              closeChannel, hes]
          obtain ⟨f1, f2, f3⟩ := cons_fresh_facts hnd hlt
          refine ⟨⟨?_, ?_⟩, ?_, ?_⟩
          · rw [hopen]; exact f1
          · rw [hopen, hnext]; exact f2
          · omega
          · intro c hc hnm; rw [hopen]; exact f3 c hc hnm
      | some ch =>
          have hopen : (handlerStep st Ev.click).openChannels =
              st.nextId :: (st.openChannels.erase ch).erase ch := by
            simp [handlerStep, handleMergeDownloadStart, startProgressStream,
              closeChannel, hes]
          have hnext : (handlerStep st Ev.click).nextId = st.nextId + 1 := by
            simp [handlerStep, handleMergeDownloadStart, startProgressStream,
              closeChannel, hes]
          obtain ⟨e1, e2, e3⟩ := erase_keeps_facts hnd hlt ch
          obtain ⟨e1', e2', e3'⟩ := erase_keeps_facts e1 e2 ch
          obtain ⟨f1, f2, f3⟩ := cons_fresh_facts e1' e2'
          refine ⟨⟨?_, ?_⟩, ?_, ?_⟩
          · rw [hopen]; exact f1
          · rw [hopen, hnext]; exact f2
          · omega
          · intro c hc hnm
            rw [hopen]
            exact f3 c hc (e3' c (e3 c hnm))
  | fetchOk k =>
      cases hg : st.pendingFetches[k]? with
      | none =>
          simp only [handlerStep, List.get?_eq_getElem?, hg]
          exact ⟨⟨hnd, hlt⟩, le_refl _, fun c _ hnm => hnm⟩
      | some captured =>
          cases captured with
          | none =>
              simp only [handlerStep, List.get?_eq_getElem?, hg, handleMergeDownloadSuccess]
              exact ⟨⟨hnd, hlt⟩, le_refl _, fun c _ hnm => hnm⟩
          | some ch =>
              have hopen : (handlerStep st (Ev.fetchOk k)).openChannels =
                  st.openChannels.erase ch := by
                simp [handlerStep, List.get?_eq_getElem?, hg, handleMergeDownloadSuccess, closeChannel]
              have hnext : (handlerStep st (Ev.fetchOk k)).nextId = st.nextId := by
                simp [handlerStep, List.get?_eq_getElem?, hg, handleMergeDownloadSuccess, closeChannel]
              obtain ⟨e1, e2, e3⟩ := erase_keeps_facts hnd hlt ch
              refine ⟨⟨?_, ?_⟩, ?_, ?_⟩
              · rw [hopen]; exact e1
              · rw [hopen, hnext]; exact e2
              · omega
              · intro c _ hnm; rw [hopen]; exact e3 c hnm
  | fetchFail k =>
      cases hg : st.pendingFetches[k]? with
      | none =>
          simp only [handlerStep, List.get?_eq_getElem?, hg]
          exact ⟨⟨hnd, hlt⟩, le_refl _, fun c _ hnm => hnm⟩
      | some captured =>
          cases captured with
          | none =>
              simp only [handlerStep, List.get?_eq_getElem?, hg, handleMergeDownloadFailure]
              exact ⟨⟨hnd, hlt⟩, le_refl _, fun c _ hnm => hnm⟩
          | some ch =>
              have hopen : (handlerStep st (Ev.fetchFail k)).openChannels =
                  st.openChannels.erase ch := by
                simp [handlerStep, List.get?_eq_getElem?, hg, handleMergeDownloadFailure, closeChannel]
              have hnext : (handlerStep st (Ev.fetchFail k)).nextId = st.nextId := by
                simp [handlerStep, List.get?_eq_getElem?, hg, handleMergeDownloadFailure, closeChannel]
              obtain ⟨e1, e2, e3⟩ := erase_keeps_facts hnd hlt ch
              refine ⟨⟨?_, ?_⟩, ?_, ?_⟩
              · rw [hopen]; exact e1
              · rw [hopen, hnext]; exact e2
              · omega
              · intro c _ hnm; rw [hopen]; exact e3 c hnm
  | message ch d =>
      by_cases hmem : ch ∈ st.openChannels
      · cases d with
        | none =>
            simp only [handlerStep, onMessage, if_pos hmem]
            exact ⟨⟨hnd, hlt⟩, le_refl _, fun c _ hnm => hnm⟩
        | some p =>
            obtain ⟨e1, e2, e3⟩ := erase_keeps_facts hnd hlt ch
            by_cases h1 : p.status = some "completed" ∨ p.status = some "finished"
            · have hopen : (handlerStep st (Ev.message ch (some p))).openChannels =
                  st.openChannels.erase ch := by
                simp [handlerStep, onMessage, if_pos hmem, if_pos h1, closeChannel]
              have hnext : (handlerStep st (Ev.message ch (some p))).nextId =
                  st.nextId := by
                simp [handlerStep, onMessage, if_pos hmem, if_pos h1, closeChannel]
              refine ⟨⟨?_, ?_⟩, ?_, ?_⟩
              · rw [hopen]; exact e1
              · rw [hopen, hnext]; exact e2
              · omega
              · intro c _ hnm; rw [hopen]; exact e3 c hnm
            · by_cases h2 : p.status = some "error"
              · have hopen : (handlerStep st (Ev.message ch (some p))).openChannels =
                    st.openChannels.erase ch := by
                  simp [handlerStep, onMessage, if_pos hmem, if_neg h1, if_pos h2,
                    closeChannel]
                have hnext : (handlerStep st (Ev.message ch (some p))).nextId =
                    st.nextId := by
                  simp [handlerStep, onMessage, if_pos hmem, if_neg h1, if_pos h2,
                    closeChannel]
                refine ⟨⟨?_, ?_⟩, ?_, ?_⟩
                · rw [hopen]; exact e1
                · rw [hopen, hnext]; exact e2
                · omega
                · intro c _ hnm; rw [hopen]; exact e3 c hnm
              · have hopen : (handlerStep st (Ev.message ch (some p))).openChannels =
                    st.openChannels := by
                  simp [handlerStep, onMessage, if_pos hmem, if_neg h1, if_neg h2]
                have hnext : (handlerStep st (Ev.message ch (some p))).nextId =
                    st.nextId := by
                  simp [handlerStep, onMessage, if_pos hmem, if_neg h1, if_neg h2]
                refine ⟨⟨?_, ?_⟩, ?_, ?_⟩
                · rw [hopen]; exact hnd
                · rw [hopen, hnext]; exact hlt
                · omega
                · intro c _ hnm; rw [hopen]; exact hnm
      · simp only [handlerStep, onMessage, if_neg hmem]
        exact ⟨⟨hnd, hlt⟩, le_refl _, fun c _ hnm => hnm⟩
  | channelError ch =>
      by_cases hmem : ch ∈ st.openChannels
      · have hopen : (handlerStep st (Ev.channelError ch)).openChannels =
            st.openChannels.erase ch := by
          simp [handlerStep, onChannelError, if_pos hmem, closeChannel]
        have hnext : (handlerStep st (Ev.channelError ch)).nextId = st.nextId := by
          simp [handlerStep, onChannelError, if_pos hmem, closeChannel]
        obtain ⟨e1, e2, e3⟩ := erase_keeps_facts hnd hlt ch
        refine ⟨⟨?_, ?_⟩, ?_, ?_⟩
        · rw [hopen]; exact e1
        · rw [hopen, hnext]; exact e2
        · omega
        · intro c _ hnm; rw [hopen]; exact e3 c hnm
      · simp only [handlerStep, onChannelError, if_neg hmem]
        exact ⟨⟨hnd, hlt⟩, le_refl _, fun c _ hnm => hnm⟩

/-- The `[eventSource]` effect cleanup only ever closes a channel: it
preserves the bookkeeping invariant, the counter, and non-membership. -/
theorem effectCleanup_keeps (prev : Option Nat) (st : AppState) (h : ChOk st) :
    ChOk (effectCleanup prev st) ∧ (effectCleanup prev st).nextId = st.nextId ∧
      ∀ c, c ∉ st.openChannels → c ∉ (effectCleanup prev st).openChannels := by
  by_cases he : st.eventSource = prev
  · unfold effectCleanup
    rw [if_pos he]
    exact ⟨h, rfl, fun _ hc => hc⟩
  · cases prev with
    | none =>
        unfold effectCleanup
        rw [if_neg he]
        exact ⟨h, rfl, fun _ hc => hc⟩
    | some a =>
        obtain ⟨e1, e2, e3⟩ := erase_keeps_facts h.1 h.2 a
        unfold effectCleanup
        rw [if_neg he]
        exact ⟨⟨e1, e2⟩, rfl, fun c hc => e3 c hc⟩

/-- Every event — handler plus effect cleanup — preserves the channel
bookkeeping invariant, never decreases the fresh-id counter, and never
reopens a closed channel whose id is below the counter. -/
theorem chOk_step (st : AppState) (e : Ev) (h : ChOk st) :
    ChOk (step st e) ∧ st.nextId ≤ (step st e).nextId ∧
      ∀ c, c < st.nextId → c ∉ st.openChannels → c ∉ (step st e).openChannels := by
  obtain ⟨h1, h2, h3⟩ := chOk_handlerStep st e h
  obtain ⟨g1, g2, g3⟩ := effectCleanup_keeps st.eventSource (handlerStep st e) h1
  refine ⟨g1, ?_, ?_⟩
  · show st.nextId ≤ (effectCleanup st.eventSource (handlerStep st e)).nextId
    rw [g2]; exact h2
  · intro c hc hnm
    exact g3 c (h3 c hc hnm)

/-- A channel that is closed and has an id below the fresh-id counter stays
closed along any event sequence. -/
theorem run_keeps_closed (evs : List Ev) :
    ∀ st c, ChOk st → c < st.nextId → c ∉ st.openChannels →
      ChOk (run st evs) ∧ c < (run st evs).nextId ∧
        c ∉ (run st evs).openChannels := by
  induction evs with
  | nil => exact fun st c h hlt hnm => ⟨h, hlt, hnm⟩
  | cons e rest ih =>
      intro st c h hlt hnm
      obtain ⟨h', hmono, hcl⟩ := chOk_step st e h
      exact ih (step st e) c h' (lt_of_lt_of_le hlt hmono) (hcl c hlt hnm)

/-- A message on a channel that is not open has no effect on the handler (a
closed EventSource dispatches no events). -/
theorem onMessage_not_open {ch : Nat} {st : AppState}
    (h : ch ∉ st.openChannels) (d : Option ProgressMsg) :
    onMessage ch d st = st := by
  simp [onMessage, if_neg h]

/-- A message event on a channel that is not open leaves the whole state
unchanged: the handler does nothing and the cell did not change, so the
effect cleanup does not re-run. -/
theorem step_message_not_open {ch : Nat} {st : AppState}
    (h : ch ∉ st.openChannels) (d : Option ProgressMsg) :
    step st (Ev.message ch d) = st := by
  show effectCleanup st.eventSource (handlerStep st (Ev.message ch d)) = st
  have hraw : handlerStep st (Ev.message ch d) = st := onMessage_not_open h d
  rw [hraw]
  simp [effectCleanup]

/-- Each event preserves the cell/open-set lockstep: a handler may
momentarily orphan a channel (a fetch continuation nulls the cell through a
stale capture), but the `[eventSource]` effect cleanup then closes the
channel the cell previously stored, so after every commit the open channels
are exactly the content of the cell. -/
theorem step_cellInv (st : AppState) (e : Ev) (h : CellInv st) :
    CellInv (step st e) := by
  unfold CellInv at h
  cases e with
  | click =>
      cases hcell : st.eventSource with
      | none =>
          have hopen : st.openChannels = [] := by rw [h, hcell]; rfl
          unfold CellInv
          simp [step, handlerStep, handleMergeDownloadStart,
            startProgressStream, closeChannel, effectCleanup, hcell, hopen]
      | some a =>
          have hopen : st.openChannels = [a] := by rw [h, hcell]; rfl
          unfold CellInv
          by_cases heq : st.nextId = a
          · simp [step, handlerStep, handleMergeDownloadStart,
              startProgressStream, closeChannel, effectCleanup, hcell, hopen,
              heq, List.erase_cons, List.erase_nil]
          · simp [step, handlerStep, handleMergeDownloadStart,
              startProgressStream, closeChannel, effectCleanup, hcell, hopen,
              heq, List.erase_cons, List.erase_nil]
  | fetchOk k =>
      cases hg : st.pendingFetches[k]? with
      | none =>
          unfold CellInv
          simp [step, handlerStep, List.get?_eq_getElem?, hg, effectCleanup, h]
      | some captured =>
          cases captured with
          | none =>
              unfold CellInv
              simp [step, handlerStep, List.get?_eq_getElem?, hg,
                handleMergeDownloadSuccess, effectCleanup, h]
          | some ch =>
              cases hcell : st.eventSource with
              | none =>
                  have hopen : st.openChannels = [] := by rw [h, hcell]; rfl
                  unfold CellInv
                  simp [step, handlerStep, List.get?_eq_getElem?, hg,
                    handleMergeDownloadSuccess, closeChannel, effectCleanup,
                    hcell, hopen]
              | some a =>
                  have hopen : st.openChannels = [a] := by rw [h, hcell]; rfl
                  unfold CellInv
                  by_cases hac : a = ch
                  · simp [step, handlerStep, List.get?_eq_getElem?, hg,
                      handleMergeDownloadSuccess, closeChannel, effectCleanup,
                      hcell, hopen, hac, List.erase_cons, List.erase_nil]
                  · simp [step, handlerStep, List.get?_eq_getElem?, hg,
                      handleMergeDownloadSuccess, closeChannel, effectCleanup,
                      hcell, hopen, hac, List.erase_cons, List.erase_nil]
  | fetchFail k =>
      cases hg : st.pendingFetches[k]? with
      | none =>
          unfold CellInv
          simp [step, handlerStep, List.get?_eq_getElem?, hg, effectCleanup, h]
      | some captured =>
          cases captured with
          | none =>
              unfold CellInv
              simp [step, handlerStep, List.get?_eq_getElem?, hg,
                handleMergeDownloadFailure, effectCleanup, h]
          | some ch =>
              cases hcell : st.eventSource with
              | none =>
                  have hopen : st.openChannels = [] := by rw [h, hcell]; rfl
                  unfold CellInv
                  simp [step, handlerStep, List.get?_eq_getElem?, hg,
                    handleMergeDownloadFailure, closeChannel, effectCleanup,
                    hcell, hopen]
              | some a =>
                  have hopen : st.openChannels = [a] := by rw [h, hcell]; rfl
                  unfold CellInv
                  by_cases hac : a = ch
                  · simp [step, handlerStep, List.get?_eq_getElem?, hg,
                      handleMergeDownloadFailure, closeChannel, effectCleanup,
                      hcell, hopen, hac, List.erase_cons, List.erase_nil]
                  · simp [step, handlerStep, List.get?_eq_getElem?, hg,
                      handleMergeDownloadFailure, closeChannel, effectCleanup,
                      hcell, hopen, hac, List.erase_cons, List.erase_nil]
  | message ch d =>
      by_cases hmem : ch ∈ st.openChannels
      · have hcell : st.eventSource = some ch := by
          rw [h] at hmem
          cases hc : st.eventSource with
          | none => rw [hc] at hmem; simp at hmem
          | some b => rw [hc] at hmem; simp at hmem; rw [hmem]
        have hopen : st.openChannels = [ch] := by rw [h, hcell]; rfl
        cases d with
        | none =>
            have hs : step st (Ev.message ch none) = st := by
              show effectCleanup st.eventSource
                  (handlerStep st (Ev.message ch none)) = st
              have hraw : handlerStep st (Ev.message ch none) = st := by
                simp [handlerStep, onMessage, if_pos hmem]
              rw [hraw]
              simp [effectCleanup]
            unfold CellInv
            rw [hs]
            exact h
        | some p =>
            by_cases h1 : p.status = some "completed" ∨
                p.status = some "finished"
            · unfold CellInv
              simp [step, handlerStep, onMessage, if_pos h1,
                closeChannel, effectCleanup, hcell, hopen, List.erase_cons,
                List.erase_nil]
            · by_cases h2 : p.status = some "error"
              · unfold CellInv
                simp [step, handlerStep, onMessage, if_neg h1,
                  if_pos h2, closeChannel, effectCleanup, hcell, hopen,
                  List.erase_cons, List.erase_nil]
              · unfold CellInv
                simp [step, handlerStep, onMessage, if_neg h1, if_neg h2,
                  effectCleanup, hcell, hopen]
      · have hs : step st (Ev.message ch d) = st := step_message_not_open hmem d
        unfold CellInv
        rw [hs]
        exact h
  | channelError ch =>
      by_cases hmem : ch ∈ st.openChannels
      · have hcell : st.eventSource = some ch := by
          rw [h] at hmem
          cases hc : st.eventSource with
          | none => rw [hc] at hmem; simp at hmem
          | some b => rw [hc] at hmem; simp at hmem; rw [hmem]
        have hopen : st.openChannels = [ch] := by rw [h, hcell]; rfl
        unfold CellInv
        simp [step, handlerStep, onChannelError, closeChannel,
          effectCleanup, hcell, hopen, List.erase_cons, List.erase_nil]
      · have hs : step st (Ev.channelError ch) = st := by
          show effectCleanup st.eventSource
              (handlerStep st (Ev.channelError ch)) = st
          have hraw : handlerStep st (Ev.channelError ch) = st := by
            simp [handlerStep, onChannelError, if_neg hmem]
          rw [hraw]
          simp [effectCleanup]
        unfold CellInv
        rw [hs]
        exact h

/-- The cell/open-set lockstep holds along any event sequence. -/
theorem run_cellInv (evs : List Ev) :
    ∀ st, CellInv st → CellInv (run st evs) := by
  induction evs with
  | nil => exact fun _ h => h
  | cons e rest ih => exact fun st h => ih (step st e) (step_cellInv st e h)

/-! ## Claim theorems -/

/-- C1: for every sequence of events from mount, at most one progress
channel is open at a time; and whenever a click starts a new download job
while a previous job's channel `a` is open, `a` is closed and exactly one
channel — the freshly opened one — is open afterward.  The handler closes
the previous channel before opening the new one (App.js lines 134-137 and
76-78), and the `[eventSource]` effect cleanup (lines 66-72) closes the
stored channel at every commit that changes the cell, so the open set never
outgrows the single cell. -/
theorem at_most_one_channel :
    (∀ evs : List Ev, (run initState evs).openChannels.length ≤ 1) ∧
    (∀ (st : AppState) (a : Nat), CellInv st → ChOk st →
        a ∈ st.openChannels →
        (step st Ev.click).openChannels = [st.nextId] ∧
        a ∉ (step st Ev.click).openChannels ∧
        (step st Ev.click).openChannels.length = 1) := by
  constructor
  · intro evs
    have hinv : CellInv (run initState evs) := run_cellInv evs initState rfl
    unfold CellInv at hinv
    rw [hinv]
    cases (run initState evs).eventSource <;> simp
  · intro st a hcellinv hok hmem
    have ha : a < st.nextId := hok.2 a hmem
    have hcell : st.eventSource = some a := by
      unfold CellInv at hcellinv
      rw [hcellinv] at hmem
      cases hc : st.eventSource with
      | none => rw [hc] at hmem; simp at hmem
      | some b => rw [hc] at hmem; simp at hmem; rw [hmem]
    have hopen : st.openChannels = [a] := by
      unfold CellInv at hcellinv
      rw [hcellinv, hcell]; rfl
    have hne : ¬ st.nextId = a := by omega
    have hres : (step st Ev.click).openChannels = [st.nextId] := by
      simp [step, handlerStep, handleMergeDownloadStart, startProgressStream,
        closeChannel, effectCleanup, hcell, hopen, hne, List.erase_cons,
        List.erase_nil]
    refine ⟨hres, ?_, by rw [hres]; rfl⟩
    rw [hres]
    simp only [List.mem_singleton]
    omega

/-- C1 witness: after one click has opened channel 0, a second click closes
it and leaves exactly the fresh channel 1 open; a two-click trace has at
most one open channel. -/
theorem at_most_one_channel_witness :
    (run initState [Ev.click, Ev.click]).openChannels.length ≤ 1 ∧
    (step (run initState [Ev.click]) Ev.click).openChannels = [1] ∧
    0 ∉ (step (run initState [Ev.click]) Ev.click).openChannels ∧
    (step (run initState [Ev.click]) Ev.click).openChannels.length = 1 := by
  have h2 := at_most_one_channel.2 (run initState [Ev.click]) 0
    (by decide) (by decide) (by decide)
  exact ⟨at_most_one_channel.1 [Ev.click, Ev.click], h2.1, h2.2.1, h2.2.2⟩

/-- C2: on success of the merge-download fetch the status is forced to
`completed` and the file name is built from the title and the quality (or
resolution), as claimed — but the claim's "the progress channel opened for
that same job by startProgressStream is closed if it is still open" fails:
the guard on App.js line 154 tests the render-captured `eventSource` (the
pre-job value, `null` here), not the channel the job opened, so the guard
skips, the cell never changes at this event (the `[eventSource]` effect
cleanup therefore does not fire either), and after a click followed by a
successful fetch the job's own channel (id 0) is still open. -/
theorem fetch_success_leaves_channel_open :
    (run initState [Ev.click, Ev.fetchOk 0]).downloadStatus = "completed" ∧
    (run initState [Ev.click, Ev.fetchOk 0]).openChannels = [0] ∧
    downloadFileName "T" "720p" "1280x720" = "T_720p.mp4" ∧
    downloadFileName "T" "" "1280x720" = "T_1280x720.mp4" :=
  by decide

/-- C3: a well-formed progress message with terminal status `completed`,
`finished` or `error` on an open channel closes that channel, and after it
no message on that same channel instance changes anything (the state is
literally unchanged, so in particular status and speed are not mutated),
along any sequence of further events. -/
theorem terminal_message_closes_channel_forever
    (st : AppState) (ch : Nat) (p : ProgressMsg) (evs : List Ev)
    (d : Option ProgressMsg) (hok : ChOk st) (hmem : ch ∈ st.openChannels)
    (hterm : p.status = some "completed" ∨ p.status = some "finished" ∨
      p.status = some "error") :
    ch ∉ (step st (Ev.message ch (some p))).openChannels ∧
    step (run (step st (Ev.message ch (some p))) evs) (Ev.message ch d) =
      run (step st (Ev.message ch (some p))) evs := by
  have hchraw : ch ∉ (handlerStep st (Ev.message ch (some p))).openChannels := by
    have hopen : (handlerStep st (Ev.message ch (some p))).openChannels =
        st.openChannels.erase ch := by
      rcases hterm with h | h | h
      · simp [handlerStep, onMessage, if_pos hmem, h, closeChannel]
      · simp [handlerStep, onMessage, if_pos hmem, h, closeChannel]
      · simp [handlerStep, onMessage, if_pos hmem, h, closeChannel]
    rw [hopen]
    intro habs
    exact absurd ((hok.1.mem_erase_iff.mp habs).1 rfl) not_false
  obtain ⟨hok0, _, _⟩ := chOk_handlerStep st (Ev.message ch (some p)) hok
  obtain ⟨_, _, g3⟩ := effectCleanup_keeps st.eventSource
    (handlerStep st (Ev.message ch (some p))) hok0
  have hclosed : ch ∉ (step st (Ev.message ch (some p))).openChannels :=
    g3 ch hchraw
  refine ⟨hclosed, ?_⟩
  obtain ⟨hok1, hmono, _⟩ := chOk_step st (Ev.message ch (some p)) hok
  have hlt : ch < (step st (Ev.message ch (some p))).nextId :=
    lt_of_lt_of_le (hok.2 ch hmem) hmono
  obtain ⟨_, _, hstill⟩ :=
    run_keeps_closed evs (step st (Ev.message ch (some p))) ch hok1 hlt hclosed
  exact step_message_not_open hstill d

/-- C3 witness: a concrete state with one open channel; a `completed`
message closes it and a later message on the same channel is a no-op after
an intervening click opened a fresh channel. -/
theorem terminal_message_closes_channel_forever_witness :
    ChOk (run initState [Ev.click]) ∧
    0 ∈ (run initState [Ev.click]).openChannels ∧
    0 ∉ (step (run initState [Ev.click])
        (Ev.message 0 (some ⟨some "completed", some 10⟩))).openChannels ∧
    step (run (step (run initState [Ev.click])
            (Ev.message 0 (some ⟨some "completed", some 10⟩))) [Ev.click])
        (Ev.message 0 (some ⟨some "downloading", some 7⟩)) =
      run (step (run initState [Ev.click])
            (Ev.message 0 (some ⟨some "completed", some 10⟩))) [Ev.click] := by
  have h := terminal_message_closes_channel_forever (run initState [Ev.click])
    0 ⟨some "completed", some 10⟩ [Ev.click]
    (some ⟨some "downloading", some 7⟩) (by decide) (by decide)
    (Or.inl (by decide))
  exact ⟨by decide, by decide, h.1, h.2⟩

/-- C8: a malformed (non-JSON-parseable) progress message is silently
ignored: the component state is entirely unchanged (so no status, speed or
advisory mutation, no surfaced error, and the channel set — hence the open
channel — is untouched), in the base variant's event machine and in the
richer variant's handler alike. -/
theorem malformed_message_ignored :
    (∀ (st : AppState) (ch : Nat), step st (Ev.message ch none) = st) ∧
    (∀ (captured now : Int) (st : RichState),
        richOnMessage captured now none st = st) := by
  constructor
  · intro st ch
    have hraw : handlerStep st (Ev.message ch none) = st := by
      by_cases h : ch ∈ st.openChannels
      · simp [handlerStep, onMessage, if_pos h]
      · simp [handlerStep, onMessage, if_neg h]
    show effectCleanup st.eventSource (handlerStep st (Ev.message ch none)) = st
    rw [hraw]
    simp [effectCleanup]
  · intro captured now st
    rfl

/-- C10: `formatSpeed` applied to the falsy speed 0 (the data model's
"unknown" value) returns the empty string, not "0 B/s". -/
theorem formatSpeed_zero_empty :
    formatSpeed 0 = "" ∧ formatSpeed 0 ≠ "0 B/s" := by decide

/-- On a strictly ascending port list, if `P` is in the list, `P` probes
successfully, and every listed port below `P` fails, then the scan stops at
`P`. -/
theorem find?_first_ascending {reach : Nat → Bool} {P : Nat} :
    ∀ l : List Nat, l.Sorted (· < ·) → P ∈ l → reach P = true →
      (∀ q ∈ l, q < P → reach q = false) → l.find? reach = some P := by
  intro l
  induction l with
  | nil => intro _ hmem; exact absurd hmem (List.not_mem_nil P)
  | cons a t ih =>
      intro hsort hmem hP hbefore
      rcases List.mem_cons.mp hmem with rfl | hmemt
      · simp [List.find?_cons, hP]
      · have halt : a < P := (List.sorted_cons.mp hsort).1 P hmemt
        have ha : reach a = false := hbefore a (List.mem_cons_self a t) halt
        rw [List.find?_cons, ha]
        exact ih (List.sorted_cons.mp hsort).2 hmemt hP
          (fun q hq hlt => hbefore q (List.mem_cons_of_mem a hq) hlt)

/-- C5: the backend locator probes ports 5001..5009 in ascending order and
resolves to the first port whose health check succeeds, regardless of the
reachability of later ports; when no probed port responds, the defaulted
port 5001 is retained.  (The probe is a one-shot startup effect — the
source runs `checkBackendPort` once in a `useEffect` with an empty
dependency list — so the resolution is a single evaluation of
`resolvedBackendPort` with no retry.) -/
theorem resolvedBackendPort_first_success :
    (∀ (reach : Nat → Bool) (P : Nat), 5001 ≤ P → P < 5010 →
        reach P = true → (∀ q, 5001 ≤ q → q < P → reach q = false) →
        resolvedBackendPort reach = P) ∧
    (∀ reach : Nat → Bool, (∀ q, 5001 ≤ q → q < 5010 → reach q = false) →
        resolvedBackendPort reach = 5001) := by
  have hbound : ∀ q ∈ candidatePorts, 5001 ≤ q ∧ q < 5010 := by decide
  constructor
  · intro reach P h1 h2 hP hq
    have hmem : P ∈ candidatePorts := by
      simp only [candidatePorts, List.mem_cons, List.not_mem_nil, or_false]
      omega
    have hfind : candidatePorts.find? reach = some P :=
      find?_first_ascending candidatePorts (by decide) hmem hP
        (fun q hqmem hlt => hq q (hbound q hqmem).1 hlt)
    simp [resolvedBackendPort, checkBackendPort, hfind]
  · intro reach hq
    have hfind : candidatePorts.find? reach = none := by
      rw [List.find?_eq_none]
      intro q hqmem
      rw [hq q (hbound q hqmem).1 (hbound q hqmem).2]
      exact Bool.false_ne_true
    simp [resolvedBackendPort, checkBackendPort, hfind]

/-- C5 witness: with only port 5004 reachable the locator resolves to 5004;
with no reachable port it retains 5001. -/
theorem resolvedBackendPort_first_success_witness :
    resolvedBackendPort (fun p => decide (p = 5004)) = 5004 ∧
    resolvedBackendPort (fun _ => false) = 5001 := by
  constructor
  · exact resolvedBackendPort_first_success.1 (fun p => decide (p = 5004))
      5004 (by decide) (by decide) (by decide)
      (fun q _ h2 => by simp only [decide_eq_false_iff_not]; omega)
  · exact resolvedBackendPort_first_success.2 (fun _ => false)
      (fun q _ _ => rfl)

/-- C9: a format-request submission clears the current VideoInfo (and the
error banner); on a successful response the VideoInfo is replaced wholesale
with the response data; on failure the single surfaced error message is the
backend's message when a nonempty one is provided and the generic fallback
"Failed to process video" otherwise, and the VideoInfo stays empty. -/
theorem handleSubmit_contract (st : SubmitState) (r : SubmitOutcome) :
    (handleSubmitStart st).videoInfo = none ∧
    (handleSubmitStart st).error = "" ∧
    (∀ info, r = SubmitOutcome.ok info →
        (handleSubmit r st).videoInfo = some info) ∧
    (∀ s, r = SubmitOutcome.fail (some s) → s ≠ "" →
        (handleSubmit r st).error = s ∧ (handleSubmit r st).videoInfo = none) ∧
    ((r = SubmitOutcome.fail none ∨ r = SubmitOutcome.fail (some "")) →
        (handleSubmit r st).error = "Failed to process video" ∧
        (handleSubmit r st).videoInfo = none) := by
  refine ⟨rfl, rfl, ?_, ?_, ?_⟩
  · intro info h
    subst h
    rfl
  · intro s h hs
    subst h
    simp [handleSubmit, handleSubmitResult, handleSubmitStart, jsOrString,
      if_neg hs]
  · intro h
    rcases h with h | h <;> subst h <;>
      simp [handleSubmit, handleSubmitResult, handleSubmitStart, jsOrString]

/-- C9 witness: a failure carrying the backend message "boom" surfaces
exactly that message and leaves VideoInfo empty. -/
theorem handleSubmit_contract_witness :
    (handleSubmit (SubmitOutcome.fail (some "boom"))
        ⟨false, "old", some ⟨"T", []⟩⟩).error = "boom" ∧
    (handleSubmit (SubmitOutcome.fail (some "boom"))
        ⟨false, "old", some ⟨"T", []⟩⟩).videoInfo = none :=
  (handleSubmit_contract ⟨false, "old", some ⟨"T", []⟩⟩
    (SubmitOutcome.fail (some "boom"))).2.2.2.1 "boom" rfl (by decide)

/-- C6 counterexample: the claim quantifies over every speed value and says
values below 1024 are formatted as whole B/s, but at the speed value 0
(below 1024) the code returns the empty string, not "0 B/s". -/
theorem formatSpeed_zero_counterexample :
    (0 : Nat) < 1024 ∧ formatSpeed 0 = "" ∧ formatSpeed 0 ≠ "0 B/s" :=
  by decide

/-- C6 amended: for every positive speed value, values below 1024 are
formatted as whole B/s; values below 1 MiB/s as KB/s to one decimal; all
other values as MB/s to one decimal — "to one decimal" pinned down as: the
printed digits are `t / 10 . t % 10` where `t` is the half-up rounding of
ten times the KiB (resp. MiB) value, characterised by the two bracketing
inequalities.  The three examples of the claim hold as stated. -/
theorem formatSpeed_bands :
    (∀ s : Nat, 0 < s → s < 1024 → formatSpeed s = toString s ++ " B/s") ∧
    (∀ s : Nat, 1024 ≤ s → s < 1048576 → ∃ t,
        formatSpeed s =
          toString (t / 10) ++ "." ++ toString (t % 10) ++ " KB/s" ∧
        1024 * t ≤ s * 10 + 512 ∧ s * 10 + 512 < 1024 * t + 1024) ∧
    (∀ s : Nat, 1048576 ≤ s → ∃ t,
        formatSpeed s =
          toString (t / 10) ++ "." ++ toString (t % 10) ++ " MB/s" ∧
        1048576 * t ≤ s * 10 + 524288 ∧
          s * 10 + 524288 < 1048576 * t + 1048576) ∧
    formatSpeed 500 = "500 B/s" ∧ formatSpeed 2048 = "2.0 KB/s" ∧
    formatSpeed 5242880 = "5.0 MB/s" := by
  refine ⟨?_, ?_, ?_, by decide, by decide, by decide⟩
  · intro s h0 h1
    unfold formatSpeed
    rw [if_neg (by omega), if_pos h1]
  · intro s h0 h1
    refine ⟨(s * 10 + 512) / 1024, ?_, by omega, by omega⟩
    unfold formatSpeed
    rw [if_neg (by omega), if_neg (by omega), if_pos h1]
  · intro s h0
    refine ⟨(s * 10 + 524288) / 1048576, ?_, by omega, by omega⟩
    unfold formatSpeed
    rw [if_neg (by omega), if_neg (by omega), if_neg (by omega)]

/-- C6 witness: the B/s band applied at the concrete speed 700. -/
theorem formatSpeed_bands_witness : formatSpeed 700 = "700 B/s" :=
  formatSpeed_bands.1 700 (by decide) (by decide)

/-- C7 counterexample: the claim says every `downloading` snapshot more
than 30 seconds after job start with speed below 1 MB/s shows a
slow-connection advisory, but a snapshot with speed 512 KiB/s = 524288 B/s
(below 1 MiB/s, above the 200 KiB/s threshold) arriving 35 seconds in
leaves the advisory empty: the code only sets an advisory below
200 KiB/s. -/
theorem slowAdvisory_gap_counterexample :
    (richOnMessage 0 35000 (some ⟨some "downloading", some 524288⟩)
        ⟨"", 0, "", true⟩).slowDownloadReason = "" ∧
    (35000 : Int) - 0 > 30000 ∧ (524288 : Int) < 1048576 ∧
    verySlowText ≠ "" ∧ slowText ≠ "" := by decide

/-- C7 amended: in the richer variant, a `downloading` snapshot received
more than 30 seconds after job start sets the "very slow" advisory when the
reported speed is below 50 KiB/s, the milder advisory when it is between
50 KiB/s and 200 KiB/s, and leaves the advisory unchanged when it is
200 KiB/s or more (in particular for speeds between 200 KiB/s and 1 MB/s no
advisory is set); the advisory is cleared (and the channel closed) whenever
the job reaches a terminal state, also on a transport error; and the
claim's scenario holds: the snapshot status `downloading`, speed 100 at
t = 35 s yields the "very slow" wording.  `captured` is the job-start
timestamp the handler's closure actually holds; it is at most the real
job-start time `jobStart` (the stale pre-job value or null = 0), so a
message more than 30 s after `jobStart` satisfies the code's elapsed-time
test. -/
theorem slowAdvisory_contract :
    (∀ (captured jobStart now : Int) (p : ProgressMsg) (st : RichState),
        captured ≤ jobStart → now - jobStart > 30000 →
        p.status = some "downloading" →
        ((jsLt p.speed 51200 = true →
            (richOnMessage captured now (some p) st).slowDownloadReason =
              verySlowText) ∧
         (jsLt p.speed 51200 = false → jsLt p.speed 204800 = true →
            (richOnMessage captured now (some p) st).slowDownloadReason =
              slowText) ∧
         (jsLt p.speed 204800 = false →
            (richOnMessage captured now (some p) st).slowDownloadReason =
              st.slowDownloadReason))) ∧
    (∀ (captured now : Int) (p : ProgressMsg) (st : RichState),
        (p.status = some "completed" ∨ p.status = some "finished" ∨
         p.status = some "error") →
        (richOnMessage captured now (some p) st).slowDownloadReason = "" ∧
        (richOnMessage captured now (some p) st).channelOpen = false) ∧
    (∀ st : RichState, (richOnError st).slowDownloadReason = "" ∧
        (richOnError st).channelOpen = false) ∧
    (richOnMessage 0 35000 (some ⟨some "downloading", some 100⟩)
        ⟨"", 0, "", true⟩).slowDownloadReason = verySlowText := by
  refine ⟨?_, ?_, fun st => ⟨rfl, rfl⟩, by decide⟩
  · intro captured jobStart now p st hcap helapsed hstatus
    have htime : now - captured > 30000 := by omega
    have hnotterm : ¬(p.status = some "completed" ∨
        p.status = some "finished") := by
      rw [hstatus]; decide
    have hnoterr : ¬(p.status = some "error") := by
      rw [hstatus]; decide
    refine ⟨?_, ?_, ?_⟩
    · intro h50
      have h1m : jsLt p.speed 1048576 = true := by
        cases hs : p.speed with
        | none => rw [hs] at h50; exact absurd h50 (by decide)
        | some v =>
            rw [hs] at h50
            simp only [jsLt, decide_eq_true_eq] at h50 ⊢
            omega
      simp [richOnMessage, hstatus, if_pos (And.intro htime h1m), h50,
        if_neg hnotterm, if_neg hnoterr]
    · intro h50 h200
      have h1m : jsLt p.speed 1048576 = true := by
        cases hs : p.speed with
        | none => rw [hs] at h200; exact absurd h200 (by decide)
        | some v =>
            rw [hs] at h200
            simp only [jsLt, decide_eq_true_eq] at h200 ⊢
            omega
      simp [richOnMessage, hstatus, if_pos (And.intro htime h1m), h50, h200,
        if_neg hnotterm, if_neg hnoterr]
    · intro h200
      have h50 : jsLt p.speed 51200 = false := by
        cases hs : p.speed with
        | none => rfl
        | some v =>
            rw [hs] at h200
            simp only [jsLt, decide_eq_false_iff_not, decide_eq_true_eq,
              not_lt] at h200 ⊢
            omega
      by_cases h1m : jsLt p.speed 1048576 = true
      · simp [richOnMessage, hstatus, if_pos (And.intro htime h1m), h50,
          h200, if_neg hnotterm, if_neg hnoterr]
      · have hcond : ¬(now - captured > 30000 ∧
            jsLt p.speed 1048576 = true) := by
          intro hc; exact h1m hc.2
        simp [richOnMessage, hstatus, if_neg hcond, if_neg hnotterm,
          if_neg hnoterr]
  · intro captured now p st hterm
    rcases hterm with h | h | h
    · constructor <;>
        simp [richOnMessage, h, jsOrString]
    · constructor <;>
        simp [richOnMessage, h, jsOrString]
    · constructor <;>
        simp [richOnMessage, h, jsOrString]

/-- C7 witness: the "very slow" band applied at a concrete stale capture
(0), job start (1000 ms) and message arrival (40000 ms) with speed 100. -/
theorem slowAdvisory_contract_witness :
    (richOnMessage 0 40000 (some ⟨some "downloading", some 100⟩)
        ⟨"", 0, "", true⟩).slowDownloadReason = verySlowText :=
  (slowAdvisory_contract.1 0 1000 40000 ⟨some "downloading", some 100⟩
    ⟨"", 0, "", true⟩ (by decide) (by decide) rfl).1 (by decide)

/-- Every kept entry passed the filesize test and its quality was not yet
seen when the pass reached it. -/
theorem displayedFormatsGo_kept {f : FormatDescriptor} :
    ∀ (fs : List FormatDescriptor) (seen : List String),
      f ∈ displayedFormatsGo seen fs →
      filesizeOk f = true ∧ f.quality ∉ seen := by
  intro fs
  induction fs with
  | nil => intro seen h; exact absurd h (List.not_mem_nil f)
  | cons g rest ih =>
      intro seen h
      by_cases hc : filesizeOk g = true ∧ g.quality ∉ seen
      · rw [displayedFormatsGo, if_pos hc] at h
        rcases List.mem_cons.mp h with rfl | hmem
        · exact hc
        · obtain ⟨h1, h2⟩ := ih (g.quality :: seen) hmem
          exact ⟨h1, fun hseen => h2 (List.mem_cons_of_mem _ hseen)⟩
      · rw [displayedFormatsGo, if_neg hc] at h
        exact ih seen h

/-- The filter pass keeps a subsequence of the original list: relative
order is preserved. -/
theorem displayedFormatsGo_sublist :
    ∀ (fs : List FormatDescriptor) (seen : List String),
      (displayedFormatsGo seen fs).Sublist fs := by
  intro fs
  induction fs with
  | nil => intro seen; rw [displayedFormatsGo]
  | cons g rest ih =>
      intro seen
      by_cases hc : filesizeOk g = true ∧ g.quality ∉ seen
      · rw [displayedFormatsGo, if_pos hc]
        exact (ih (g.quality :: seen)).cons₂ g
      · rw [displayedFormatsGo, if_neg hc]
        exact (ih seen).cons g

/-- The kept entries have pairwise distinct qualities. -/
theorem displayedFormatsGo_pairwise :
    ∀ (fs : List FormatDescriptor) (seen : List String),
      (displayedFormatsGo seen fs).Pairwise
        fun a b => a.quality ≠ b.quality := by
  intro fs
  induction fs with
  | nil => intro seen; rw [displayedFormatsGo]; exact List.Pairwise.nil
  | cons g rest ih =>
      intro seen
      by_cases hc : filesizeOk g = true ∧ g.quality ∉ seen
      · rw [displayedFormatsGo, if_pos hc]
        refine List.Pairwise.cons ?_ (ih (g.quality :: seen))
        intro b hb hEq
        have hnot := (displayedFormatsGo_kept rest (g.quality :: seen) hb).2
        exact hnot (by rw [← hEq]; exact List.mem_cons_self _ _)
      · rw [displayedFormatsGo, if_neg hc]
        exact ih seen


/-- Every kept entry is the first entry, among the entries of the original
list that pass the filesize test, that carries its quality. -/
theorem displayedFormatsGo_first {f : FormatDescriptor} :
    ∀ (fs : List FormatDescriptor) (seen : List String),
      f ∈ displayedFormatsGo seen fs →
      (fs.filter filesizeOk).find? (fun g => g.quality == f.quality)
        = some f := by
  intro fs
  induction fs with
  | nil => intro seen h; exact absurd h (List.not_mem_nil f)
  | cons g rest ih =>
      intro seen h
      by_cases hok : filesizeOk g = true
      · rw [List.filter_cons_of_pos hok]
        by_cases hq : g.quality ∈ seen
        · rw [displayedFormatsGo, if_neg (fun hc => hc.2 hq)] at h
          have hfq : f.quality ∉ seen := (displayedFormatsGo_kept rest seen h).2
          have hneq : (g.quality == f.quality) = false := by
            simp only [beq_eq_false_iff_ne, ne_eq]
            exact fun hEq => hfq (hEq ▸ hq)
          simp only [List.find?_cons, hneq]
          exact ih seen h
        · rw [displayedFormatsGo, if_pos ⟨hok, hq⟩] at h
          rcases List.mem_cons.mp h with rfl | hmem
          · exact List.find?_cons_of_pos _ (beq_self_eq_true f.quality)
          · have hfq : f.quality ∉ g.quality :: seen :=
              (displayedFormatsGo_kept rest (g.quality :: seen) hmem).2
            have hneq : (g.quality == f.quality) = false := by
              simp only [beq_eq_false_iff_ne, ne_eq]
              exact fun hEq =>
                hfq (by rw [← hEq]; exact List.mem_cons_self _ _)
            simp only [List.find?_cons, hneq]
            exact ih (g.quality :: seen) hmem
      · rw [List.filter_cons_of_neg (by simpa using hok)]
        rw [displayedFormatsGo, if_neg (fun hc => hok hc.1)] at h
        exact ih seen h

/-- C4 counterexample: the claim says the displayed list keeps at most the
first occurrence of each distinct quality, but on the list cexA, cexB —
two entries of quality "720p", the first with filesize 0 — the displayed
list is the second occurrence cexB, not the first occurrence cexA: a
zero-filesize entry is dropped without marking its quality as seen. -/
theorem displayedFormats_not_first_occurrence :
    displayedFormats [cexA, cexB] = [cexB] ∧
    List.find? (fun g => g.quality == cexB.quality) [cexA, cexB] = some cexA ∧
    cexA ≠ cexB ∧ cexA.quality = cexB.quality := by decide

/-- C4 amended: the displayed list contains no two entries with the same
quality and no entry with unknown or non-positive filesize; each displayed
entry is the first occurrence of its quality among the entries with known
positive filesize (rather than among all entries); and the relative order
of the original list is preserved (the displayed list is a sublist). -/
theorem displayedFormats_contract :
    (∀ (fs : List FormatDescriptor) (f : FormatDescriptor),
        f ∈ displayedFormats fs →
        filesizeOk f = true ∧
        (fs.filter filesizeOk).find? (fun g => g.quality == f.quality)
          = some f) ∧
    (∀ fs : List FormatDescriptor,
        (displayedFormats fs).Pairwise (fun a b => a.quality ≠ b.quality) ∧
        (displayedFormats fs).Sublist fs) := by
  constructor
  · intro fs f h
    exact ⟨(displayedFormatsGo_kept fs [] h).1,
      displayedFormatsGo_first fs [] h⟩
  · intro fs
    exact ⟨displayedFormatsGo_pairwise fs [], displayedFormatsGo_sublist fs []⟩

/-- C4 witness: on the concrete list cexA, cexB the displayed entry cexB
passes the filesize test and is the first filesize-positive entry of
quality "720p". -/
theorem displayedFormats_contract_witness :
    filesizeOk cexB = true ∧
    ([cexA, cexB].filter filesizeOk).find?
        (fun g => g.quality == cexB.quality) = some cexB :=
  displayedFormats_contract.1 [cexA, cexB] cexB (by decide)

end VideoDownloader
